import Mathlib

/-!
Verification development for the third-person character controller.
The definitions embed, over the reals, the locomotion integrator and the
collision resolver of `src/entities/Unit.ts` and the camera-orbit logic of
`src/components/GameCanvas.tsx`.  The theorems settle the specification
claims about those operations.
-/

namespace TPC

noncomputable section

/-- A 3-component real vector, modelling `THREE.Vector3`. -/
structure Vec3 where
  x : ℝ
  y : ℝ
  z : ℝ

attribute [ext] Vec3

instance : Add Vec3 := ⟨fun a b => ⟨a.x + b.x, a.y + b.y, a.z + b.z⟩⟩

instance : Sub Vec3 := ⟨fun a b => ⟨a.x - b.x, a.y - b.y, a.z - b.z⟩⟩

instance : SMul ℝ Vec3 := ⟨fun t v => ⟨t * v.x, t * v.y, t * v.z⟩⟩

instance : Zero Vec3 := ⟨⟨0, 0, 0⟩⟩

/-- Dot product of two vectors (`THREE.Vector3.dot`). -/
def dot (a b : Vec3) : ℝ := a.x * b.x + a.y * b.y + a.z * b.z

/-- Squared length (`THREE.Vector3.lengthSq`). -/
def lengthSq (v : Vec3) : ℝ := v.x ^ 2 + v.y ^ 2 + v.z ^ 2

/-- Length (`THREE.Vector3.length`). -/
def length (v : Vec3) : ℝ := Real.sqrt (lengthSq v)

/-- Euclidean distance between two points (`THREE.Vector3.distanceTo`). -/
def dist3 (a b : Vec3) : ℝ := length (a - b)

/-- Squared distance between two points (`THREE.Vector3.distanceToSquared`). -/
def distSq (a b : Vec3) : ℝ := lengthSq (a - b)

/-- `THREE.Vector3.normalize`: divide by the length, or by 1 when the length
is zero (`divideScalar(length() || 1)`), so the zero vector maps to itself. -/
def normalize (v : Vec3) : Vec3 :=
  if length v = 0 then v else (1 / length v) • v

/-- `THREE.Vector3.projectOnVector`: the projection of `v` onto `target`,
returning the zero vector when `target` has zero squared length. -/
def projectOnVector (v target : Vec3) : Vec3 :=
  if lengthSq target = 0 then 0 else (dot target v / lengthSq target) • target

/-- `THREE.Vector3.projectOnPlane`: remove from `v` its projection onto `n`. -/
def projectOnPlane (v n : Vec3) : Vec3 := v - projectOnVector v n

/-- `THREE.MathUtils.clamp`: `Math.max(lo, Math.min(hi, v))`. -/
def clampR (v lo hi : ℝ) : ℝ := max lo (min hi v)

/-- `THREE.MathUtils.lerp`: `(1 - t) * x + t * y`. -/
def lerp (x y t : ℝ) : ℝ := (1 - t) * x + t * y

/-- A static axis-aligned box obstacle (a world-space `THREE.Box3`). -/
structure Box3 where
  lo : Vec3
  hi : Vec3

/-- `THREE.Box3.clampPoint`: clamp a point into the box, componentwise. -/
def clampPoint (p : Vec3) (b : Box3) : Vec3 :=
  ⟨clampR p.x b.lo.x b.hi.x, clampR p.y b.lo.y b.hi.y, clampR p.z b.lo.z b.hi.z⟩

/-- A box is well formed when its minimum corner is below its maximum corner,
as is the case for every `THREE.BufferGeometry` bounding box. -/
def wellFormed (b : Box3) : Prop :=
  b.lo.x ≤ b.hi.x ∧ b.lo.y ≤ b.hi.y ∧ b.lo.z ≤ b.hi.z

/-- Membership of a point in a box (closed, componentwise). -/
def insideBox (p : Vec3) (b : Box3) : Prop :=
  b.lo.x ≤ p.x ∧ p.x ≤ b.hi.x ∧ b.lo.y ≤ p.y ∧ p.y ≤ b.hi.y ∧
    b.lo.z ≤ p.z ∧ p.z ≤ b.hi.z

/-- Capsule radius of the unit (`Unit.radius = 0.5`). -/
def radius : ℝ := 0.5

/-- Capsule height of the unit (`Unit.height = 1.6`). -/
def height : ℝ := 1.6

/-- The boolean control flags (`ControlState` in `src/unnamed/part_001`). -/
structure ControlState where
  forward : Bool
  backward : Bool
  left : Bool
  right : Bool
  jump : Bool
  run : Bool
  resetCamera : Bool

/-- The virtual-joystick snapshot (`JoystickData`). -/
structure JoystickState where
  x : ℝ
  y : ℝ
  active : Bool

/-- The mutable state of the controlled unit (`Unit` in `src/entities/Unit.ts`).
`hasMixer` models whether `this.mixer` has been set by the asset load;
`actions` models the keys of the animation table `this.actions`. -/
structure UnitState where
  position : Vec3
  velocity : Vec3
  rotY : ℝ
  isGrounded : Bool
  hasMixer : Bool
  currentAction : String
  actions : List String
  capsuleStart : Vec3
  capsuleEnd : Vec3

attribute [ext] UnitState

/-- Ceiling step fact used for the termination of the wrap loops: the
ceiling of `a - 1` is strictly below the ceiling of a positive `a`. -/
theorem ceil_sub_one_lt {a : ℝ} (ha : 0 < a) :
    Nat.ceil (a - 1) < Nat.ceil a := by
  have h1 : 1 ≤ Nat.ceil a := Nat.ceil_pos.mpr ha
  have hcast : ((Nat.ceil a - 1 : ℕ) : ℝ) = (Nat.ceil a : ℝ) - 1 := by
    push_cast [Nat.cast_sub h1]
    ring
  have hle : a - 1 ≤ ((Nat.ceil a - 1 : ℕ) : ℝ) := by
    rw [hcast]
    have := Nat.le_ceil a
    linarith
  have h2 : Nat.ceil (a - 1) ≤ Nat.ceil a - 1 := Nat.ceil_le.mpr hle
  omega

/-- First while-loop of the yaw smoothing in `Unit.update`:
`while (diff < -Math.PI) diff += Math.PI * 2`. -/
def wrapUp (x : ℝ) : ℝ :=
  if x < -Real.pi then wrapUp (x + 2 * Real.pi) else x
termination_by Nat.ceil ((-Real.pi - x) / (2 * Real.pi))
decreasing_by
  simp_wf
  have hpi := Real.pi_pos
  have ha : 0 < (-Real.pi - x) / (2 * Real.pi) := by
    apply div_pos <;> linarith
  have hstep : (-Real.pi - (x + 2 * Real.pi)) / (2 * Real.pi)
      = (-Real.pi - x) / (2 * Real.pi) - 1 := by
    field_simp
    ring
  rw [hstep]
  exact ceil_sub_one_lt ha

/-- Second while-loop of the yaw smoothing in `Unit.update`:
`while (diff > Math.PI) diff -= Math.PI * 2`. -/
def wrapDown (x : ℝ) : ℝ :=
  if Real.pi < x then wrapDown (x - 2 * Real.pi) else x
termination_by Nat.ceil ((x - Real.pi) / (2 * Real.pi))
decreasing_by
  simp_wf
  have hpi := Real.pi_pos
  have ha : 0 < (x - Real.pi) / (2 * Real.pi) := by
    apply div_pos <;> linarith
  have hstep : (x - 2 * Real.pi - Real.pi) / (2 * Real.pi)
      = (x - Real.pi) / (2 * Real.pi) - 1 := by
    field_simp
    ring
  rw [hstep]
  exact ceil_sub_one_lt ha

/-- The two wrap loops in sequence, as applied to the raw yaw difference. -/
def wrapAngle (x : ℝ) : ℝ := wrapDown (wrapUp x)

/-- `Math.atan2`, via the complex argument. -/
def atan2 (y x : ℝ) : ℝ := Complex.arg ⟨x, y⟩

/-- The yaw increment `Unit.update` adds to `rotation.y`:
15% of the wrapped difference between target and current yaw. -/
def yawDelta (rot target : ℝ) : ℝ := 0.15 * wrapAngle (target - rot)

/-- The raw planar move intent `(moveX, moveZ)` of `Unit.update`: digital
flags contribute plus or minus one per axis, and an active joystick
overrides both components (`moveX = j.x`, `moveZ = -j.y`). -/
def moveIntent (c : ControlState) (j : JoystickState) : ℝ × ℝ :=
  if j.active then (j.x, -j.y)
  else ((if c.right then (1:ℝ) else 0) - (if c.left then (1:ℝ) else 0),
        (if c.forward then (1:ℝ) else 0) - (if c.backward then (1:ℝ) else 0))

/-- The clamped intent magnitude `Math.min(new Vector2(moveX, moveZ).length(), 1.0)`. -/
def inputMagOf (moveX moveZ : ℝ) : ℝ := min (Real.sqrt (moveX ^ 2 + moveZ ^ 2)) 1

/-- The camera-relative world-space move vector of `Unit.update`, before
normalization: `forward.scaled(moveZ) + right.scaled(moveX)` with
`forward = (-sin θ, 0, -cos θ)` and `right = (cos θ, 0, -sin θ)`. -/
def moveVec (theta moveX moveZ : ℝ) : Vec3 :=
  moveZ • (⟨-Real.sin theta, 0, -Real.cos theta⟩ : Vec3)
    + moveX • (⟨Real.cos theta, 0, -Real.sin theta⟩ : Vec3)

/-- `Unit.update`: one locomotion-integration step.  Mirrors
`src/entities/Unit.ts` lines 70-137: early return without a mixer, input
fusion, yaw smoothing, horizontal velocity lerp, jump/gravity, position
integration, capsule sync, and animation selection. -/
def update (delta : ℝ) (c : ControlState) (j : JoystickState) (cameraTheta : ℝ)
    (testAnim : Option String) (s : UnitState) : UnitState :=
  if s.hasMixer = false then s else
    let moveX := (moveIntent c j).1
    let moveZ := (moveIntent c j).2
    let speed : ℝ := if c.run then 12.0 else 6.0
    let inputMag := inputMagOf moveX moveZ
    let moveDir := normalize (moveVec cameraTheta moveX moveZ)
    let rotY2 := if inputMag > 0.05 then
        s.rotY + yawDelta s.rotY (atan2 moveDir.x moveDir.z)
      else s.rotY
    let vx2 := if inputMag > 0.05 then
        lerp s.velocity.x (moveDir.x * inputMag * speed) 0.15
      else lerp s.velocity.x 0 0.15
    let vz2 := if inputMag > 0.05 then
        lerp s.velocity.z (moveDir.z * inputMag * speed) 0.15
      else lerp s.velocity.z 0 0.15
    let vy2 := if s.isGrounded then (if c.jump then (13.0:ℝ) else 0)
      else s.velocity.y - 32.0 * delta
    let grounded2 := if s.isGrounded then (if c.jump then false else true) else false
    let vel2 : Vec3 := ⟨vx2, vy2, vz2⟩
    let pos2 := s.position + delta • vel2
    let velMag := Real.sqrt (vx2 ^ 2 + vz2 ^ 2)
    let next := if grounded2 then
        (if velMag > 7.0 then "Running" else if velMag > 0.5 then "Walking" else "Idle")
      else "Jump"
    let active := testAnim.getD next
    { position := pos2
      velocity := vel2
      rotY := rotY2
      isGrounded := grounded2
      hasMixer := s.hasMixer
      currentAction :=
        if s.currentAction ≠ active ∧ active ∈ s.actions then active else s.currentAction
      actions := s.actions
      capsuleStart := (⟨0, radius, 0⟩ : Vec3) + pos2
      capsuleEnd := (⟨0, height - radius, 0⟩ : Vec3) + pos2 }

/-- Resolution of one box obstacle in `Unit.checkCollisions`: broad-phase
sphere test (`box.intersectsSphere(Sphere(position, height))`), then clamp
to closest point, and on penetration push the position out and project the
velocity.  The pushed vector is the normal already scaled by the overlap,
exactly as the mutated `normal` vector in the source. -/
def resolveObstacle (s : UnitState) (b : Box3) : UnitState :=
  let cp := clampPoint s.position b
  if distSq cp s.position ≤ height ^ 2 then
    let d := dist3 s.position cp
    if d < radius then
      let pushVec := (radius - d) • normalize (s.position - cp)
      { s with position := s.position + pushVec,
               velocity := projectOnPlane s.velocity pushVec }
    else s
  else s

/-- `Unit.checkCollisions`: floor clamp with landing-dust side effect, then
per-obstacle resolution in list order.  The second component collects the
positions passed to the dust-spawn callback during the call. -/
def checkCollisions (obstacles : List Box3) (s : UnitState) : UnitState × List Vec3 :=
  let wasGrounded := s.isGrounded
  let s1 : UnitState := { s with isGrounded := false }
  let s2 := if s.position.y ≤ 0 then
      { s1 with position := ⟨s.position.x, 0, s.position.z⟩, isGrounded := true }
    else s1
  let dust := if s.position.y ≤ 0 ∧ wasGrounded = false then
      [(⟨s.position.x, 0, s.position.z⟩ : Vec3)]
    else []
  (obstacles.foldl resolveObstacle s2, dust)

/-- The camera-orbit state of `GameCanvas.tsx` (`cameraOrbit` ref). -/
structure CameraOrbit where
  theta : ℝ
  phi : ℝ
  distance : ℝ
  targetTheta : ℝ
  targetPhi : ℝ

/-- The operations that drive the camera orbit: a pointer drag
(`onMouseMove`), a recenter trigger, and one per-tick smoothing step of the
`animate` loop. -/
inductive CamOp where
  | drag (dx dy : ℝ)
  | recenter (heading : ℝ)
  | smoothStep

/-- Apply one camera operation, mirroring `GameCanvas.tsx` lines 174-206. -/
def applyCamOp (cam : CameraOrbit) : CamOp → CameraOrbit
  | .drag dx dy =>
      { cam with targetTheta := cam.targetTheta - dx * 0.008,
                 targetPhi := clampR (cam.targetPhi + dy * 0.008) (-0.2) 1.3 }
  | .recenter heading =>
      { cam with targetTheta := heading + Real.pi, targetPhi := 0.3 }
  | .smoothStep =>
      { cam with theta := lerp cam.theta cam.targetTheta 0.1,
                 phi := lerp cam.phi cam.targetPhi 0.1 }

/-- The initial camera orbit (`GameCanvas.tsx` line 74). -/
def initialCamera : CameraOrbit := ⟨Real.pi, 0.3, 7.0, Real.pi, 0.3⟩

/-- Run a sequence of camera operations from the initial orbit. -/
def runCamera (ops : List CamOp) : CameraOrbit := ops.foldl applyCamOp initialCamera

/-- Horizontal (planar) speed of the unit, as used by the animation selector. -/
def horizSpeed (s : UnitState) : ℝ :=
  Real.sqrt (s.velocity.x ^ 2 + s.velocity.z ^ 2)

/-- Modelled from the spec wording of claim C3 (for comparison only): the
unique representative of an angle in the half-open interval `(-π, π]`. -/
def specWrapIoc (x : ℝ) : ℝ :=
  x - 2 * Real.pi * Int.ceil ((x - Real.pi) / (2 * Real.pi))

/-- Control snapshot of the C7 walk scenario: `forward` held, nothing else. -/
def c7controls : ControlState := ⟨true, false, false, false, false, false, false⟩

/-- An inactive joystick snapshot. -/
def j0 : JoystickState := ⟨0, 0, false⟩

/-- Initial unit state of the C7 walk scenario: loaded, at the origin, at
rest, grounded, idle, with the standard clip table of the default asset. -/
def c7start : UnitState :=
  { position := 0
    velocity := 0
    rotY := 0
    isGrounded := true
    hasMixer := true
    currentAction := "Idle"
    actions := ["Idle", "Walking", "Running", "Jump"]
    capsuleStart := ⟨0, radius, 0⟩
    capsuleEnd := ⟨0, height - radius, 0⟩ }

/-- One simulation tick of the C7 scenario: update with `delta = 0.016`,
camera `theta = 0`, no override, then collision resolution on flat ground. -/
def tickC7 (s : UnitState) : UnitState :=
  (checkCollisions [] (update 0.016 c7controls j0 0 none s)).1

/-- A control snapshot with no key held. -/
def cIdle : ControlState := ⟨false, false, false, false, false, false, false⟩

/-- A control snapshot with only the jump key held. -/
def cJump : ControlState := ⟨false, false, false, false, true, false, false⟩

/-- A grounded, loaded unit at the origin at rest (witness input). -/
def c2state : UnitState :=
  { position := 0, velocity := 0, rotY := 0, isGrounded := true, hasMixer := true,
    currentAction := "Idle", actions := [], capsuleStart := 0, capsuleEnd := 0 }

/-- An airborne unit at the origin falling with vertical speed 1 (C8 input). -/
def c8state : UnitState :=
  { position := 0, velocity := ⟨0, -1, 0⟩, rotY := 0, isGrounded := false, hasMixer := true,
    currentAction := "Idle", actions := [], capsuleStart := 0, capsuleEnd := 0 }

/-- An airborne unit slightly below the floor (C4 witness input). -/
def c4state : UnitState :=
  { position := ⟨1, -0.3, 2⟩, velocity := 0, rotY := 0, isGrounded := false, hasMixer := true,
    currentAction := "Idle", actions := [], capsuleStart := 0, capsuleEnd := 0 }

/-- A grounded unit at the origin, one unit away from `c5box` (C5 witness). -/
def c5state : UnitState :=
  { position := 0, velocity := ⟨1, 0, 1⟩, rotY := 0, isGrounded := true, hasMixer := true,
    currentAction := "Idle", actions := [], capsuleStart := 0, capsuleEnd := 0 }

/-- An obstacle box whose closest point to the origin is at distance 1. -/
def c5box : Box3 := ⟨⟨1, 0, 0⟩, ⟨2, 2, 2⟩⟩

/-- A loaded unit without a mixer (C10 witness input). -/
def c10state : UnitState :=
  { position := ⟨1, 2, 3⟩, velocity := ⟨4, 5, 6⟩, rotY := 0.7, isGrounded := false,
    hasMixer := false, currentAction := "Idle", actions := [], capsuleStart := 0,
    capsuleEnd := 0 }

/-- A unit penetrating `c1box` by 0.1 while below the floor (C1 counterexample). -/
def c1stateX : UnitState :=
  { position := ⟨0.6, -1, 1⟩, velocity := 0, rotY := 0, isGrounded := false, hasMixer := true,
    currentAction := "Idle", actions := [], capsuleStart := 0, capsuleEnd := 0 }

/-- The obstacle box of the C1 counterexample. -/
def c1boxX : Box3 := ⟨⟨1, -2, 0⟩, ⟨2, 2, 2⟩⟩

/-- `c1stateX` after the floor clamp of `checkCollisions`. -/
def c1stateX2 : UnitState :=
  { position := ⟨0.6, 0, 1⟩, velocity := 0, rotY := 0, isGrounded := true, hasMixer := true,
    currentAction := "Idle", actions := [], capsuleStart := 0, capsuleEnd := 0 }

/-- A unit at floor level penetrating `c1boxW` by 0.1 (C1 witness input). -/
def c1stateW : UnitState :=
  { position := ⟨0.6, 1, 1⟩, velocity := ⟨3, 2, 5⟩, rotY := 0, isGrounded := false,
    hasMixer := true, currentAction := "Idle", actions := [], capsuleStart := 0,
    capsuleEnd := 0 }

/-- The obstacle box of the C1 witness. -/
def c1boxW : Box3 := ⟨⟨1, 0, 0⟩, ⟨2, 2, 2⟩⟩

/-- A box that strictly contains the point `(0, 0.5, 0)` (C9 counterexample). -/
def c9box : Box3 := ⟨⟨-1, 0, -1⟩, ⟨1, 1, 1⟩⟩

end

end TPC

namespace TPC

noncomputable section

/-! ## Componentwise simp lemmas for the vector operations -/

@[simp] theorem add_x (a b : Vec3) : (a + b).x = a.x + b.x := rfl

@[simp] theorem add_y (a b : Vec3) : (a + b).y = a.y + b.y := rfl

@[simp] theorem add_z (a b : Vec3) : (a + b).z = a.z + b.z := rfl

@[simp] theorem sub_x (a b : Vec3) : (a - b).x = a.x - b.x := rfl

@[simp] theorem sub_y (a b : Vec3) : (a - b).y = a.y - b.y := rfl

@[simp] theorem sub_z (a b : Vec3) : (a - b).z = a.z - b.z := rfl

@[simp] theorem smul_x (t : ℝ) (v : Vec3) : (t • v).x = t * v.x := rfl

@[simp] theorem smul_y (t : ℝ) (v : Vec3) : (t • v).y = t * v.y := rfl

@[simp] theorem smul_z (t : ℝ) (v : Vec3) : (t • v).z = t * v.z := rfl

@[simp] theorem zero_x : (0 : Vec3).x = 0 := rfl

@[simp] theorem zero_y : (0 : Vec3).y = 0 := rfl

@[simp] theorem zero_z : (0 : Vec3).z = 0 := rfl

theorem dot_comm (a b : Vec3) : dot a b = dot b a := by
  simp only [dot]
  ring

theorem lengthSq_nonneg (v : Vec3) : 0 ≤ lengthSq v := by
  simp only [lengthSq]
  positivity

theorem length_nonneg (v : Vec3) : 0 ≤ length v := Real.sqrt_nonneg _

theorem lengthSq_eq_zero_iff {v : Vec3} : lengthSq v = 0 ↔ v = 0 := by
  constructor
  · intro h
    have hx : v.x ^ 2 + v.y ^ 2 + v.z ^ 2 = 0 := h
    have h1 : v.x = 0 ∧ v.y = 0 ∧ v.z = 0 := by
      constructor
      · nlinarith [sq_nonneg v.x, sq_nonneg v.y, sq_nonneg v.z]
      constructor
      · nlinarith [sq_nonneg v.x, sq_nonneg v.y, sq_nonneg v.z]
      · nlinarith [sq_nonneg v.x, sq_nonneg v.y, sq_nonneg v.z]
    ext <;> simp [h1.1, h1.2.1, h1.2.2]
  · intro h
    subst h
    simp [lengthSq]

theorem length_eq_zero_iff {v : Vec3} : length v = 0 ↔ v = 0 := by
  rw [length, Real.sqrt_eq_zero (lengthSq_nonneg v)]
  exact lengthSq_eq_zero_iff

theorem sq_length (v : Vec3) : length v ^ 2 = lengthSq v :=
  Real.sq_sqrt (lengthSq_nonneg v)

theorem distSq_comm_eq (a b : Vec3) : distSq a b = distSq b a := by
  simp only [distSq, lengthSq, sub_x, sub_y, sub_z]
  ring

theorem distSq_eq_sq_dist (a b : Vec3) : distSq a b = dist3 a b ^ 2 := by
  rw [dist3, sq_length, distSq]

/-! ## Wrapping lemmas -/

theorem wrapUp_of_ge {x : ℝ} (h : -Real.pi ≤ x) : wrapUp x = x := by
  rw [wrapUp]
  exact if_neg (not_lt.mpr h)

theorem wrapDown_of_le {x : ℝ} (h : x ≤ Real.pi) : wrapDown x = x := by
  rw [wrapDown]
  exact if_neg (not_lt.mpr h)

theorem wrapUp_ge (x : ℝ) : -Real.pi ≤ wrapUp x := by
  induction x using wrapUp.induct with
  | case1 x h ih =>
      rw [wrapUp, if_pos h]
      exact ih
  | case2 x h =>
      rw [wrapUp, if_neg h]
      exact not_lt.mp h

theorem wrapUp_mod (x : ℝ) : ∃ k : ℕ, wrapUp x = x + 2 * Real.pi * k := by
  induction x using wrapUp.induct with
  | case1 x h ih =>
      obtain ⟨k, hk⟩ := ih
      refine ⟨k + 1, ?_⟩
      rw [wrapUp, if_pos h, hk]
      push_cast
      ring
  | case2 x h =>
      exact ⟨0, by rw [wrapUp, if_neg h]; push_cast; ring⟩

theorem wrapDown_le (x : ℝ) : wrapDown x ≤ Real.pi := by
  induction x using wrapDown.induct with
  | case1 x h ih =>
      rw [wrapDown, if_pos h]
      exact ih
  | case2 x h =>
      rw [wrapDown, if_neg h]
      exact not_lt.mp h

theorem wrapDown_ge {x : ℝ} (hx : -Real.pi ≤ x) : -Real.pi ≤ wrapDown x := by
  induction x using wrapDown.induct with
  | case1 x h ih =>
      rw [wrapDown, if_pos h]
      apply ih
      have := Real.pi_pos
      linarith
  | case2 x h =>
      rw [wrapDown, if_neg h]
      exact hx

theorem wrapDown_mod (x : ℝ) : ∃ k : ℕ, wrapDown x = x - 2 * Real.pi * k := by
  induction x using wrapDown.induct with
  | case1 x h ih =>
      obtain ⟨k, hk⟩ := ih
      refine ⟨k + 1, ?_⟩
      rw [wrapDown, if_pos h, hk]
      push_cast
      ring
  | case2 x h =>
      exact ⟨0, by rw [wrapDown, if_neg h]; push_cast; ring⟩

theorem wrapAngle_ge (x : ℝ) : -Real.pi ≤ wrapAngle x :=
  wrapDown_ge (wrapUp_ge x)

theorem wrapAngle_le (x : ℝ) : wrapAngle x ≤ Real.pi :=
  wrapDown_le _

theorem wrapAngle_mod (x : ℝ) : ∃ k : ℤ, wrapAngle x = x + 2 * Real.pi * k := by
  obtain ⟨a, ha⟩ := wrapUp_mod x
  obtain ⟨b, hb⟩ := wrapDown_mod (wrapUp x)
  refine ⟨(a : ℤ) - b, ?_⟩
  rw [wrapAngle, hb, ha]
  push_cast
  ring

theorem wrapAngle_of_mem {x : ℝ} (h1 : -Real.pi ≤ x) (h2 : x ≤ Real.pi) :
    wrapAngle x = x := by
  rw [wrapAngle, wrapUp_of_ge h1, wrapDown_of_le h2]

/-! ## Helper lemmas about the collision resolver -/

theorem vadd_comm (a b : Vec3) : a + b = b + a := by
  ext <;> simp <;> ring

theorem resolveObstacle_isGrounded (s : UnitState) (b : Box3) :
    (resolveObstacle s b).isGrounded = s.isGrounded := by
  simp only [resolveObstacle]
  split
  · split <;> rfl
  · rfl

theorem foldl_resolve_isGrounded (l : List Box3) (s : UnitState) :
    (l.foldl resolveObstacle s).isGrounded = s.isGrounded := by
  induction l generalizing s with
  | nil => rfl
  | cons b t ih => rw [List.foldl_cons, ih, resolveObstacle_isGrounded]

theorem foldl_fixed {α β : Type} {f : α → β → α} {s : α} {l : List β}
    (h : ∀ b ∈ l, f s b = s) : l.foldl f s = s := by
  induction l with
  | nil => rfl
  | cons b t ih =>
      rw [List.foldl_cons, h b (List.mem_cons_self b t)]
      exact ih fun x hx => h x (List.mem_cons_of_mem b hx)

theorem resolveObstacle_of_far {s : UnitState} {b : Box3}
    (h : ¬ dist3 s.position (clampPoint s.position b) < radius) :
    resolveObstacle s b = s := by
  simp only [resolveObstacle]
  split <;> rfl

theorem checkCollisions_keeps_position {s : UnitState} {obs : List Box3}
    (hy : 0 ≤ s.position.y)
    (hfar : ∀ b ∈ obs, ¬ dist3 s.position (clampPoint s.position b) < radius) :
    (checkCollisions obs s).1.position = s.position := by
  have main : ∀ t : UnitState, t.position = s.position →
      (obs.foldl resolveObstacle t).position = s.position := by
    intro t ht
    rw [foldl_fixed]
    · exact ht
    · intro b hb
      apply resolveObstacle_of_far
      rw [ht]
      exact hfar b hb
  by_cases hle : s.position.y ≤ 0
  · have hy0 : s.position.y = 0 := le_antisymm hle hy
    simp only [checkCollisions, if_pos hle]
    apply main
    ext <;> simp [hy0]
  · simp only [checkCollisions, if_neg hle]
    exact main _ rfl

/-! ## Claim theorems -/

/-- C10: before the asset load has completed (`this.mixer` unset),
`Unit.update` returns with the unit state entirely unchanged, for every
delta, control state, joystick state, camera heading and override. -/
theorem update_noop_without_mixer (delta : ℝ) (c : ControlState) (j : JoystickState)
    (theta : ℝ) (t : Option String) (s : UnitState) (h : s.hasMixer = false) :
    update delta c j theta t s = s := by
  simp [update, h]

/-- Witness for C10 at a concrete unloaded state. -/
theorem update_noop_without_mixer_witness :
    c10state.hasMixer = false ∧ update 1 cJump j0 0.3 none c10state = c10state :=
  ⟨rfl, update_noop_without_mixer 1 cJump j0 0.3 none c10state rfl⟩

/-- C2: from any grounded, loaded unit state, one `Unit.update` call with
`delta = 0` and `jump` held sets `velocity.y` to exactly 13.0 and clears
`isGrounded`, whatever the horizontal flags and joystick state; with `jump`
not held, `velocity.y` is set to 0. -/
theorem jump_impulse (c : ControlState) (j : JoystickState) (theta : ℝ)
    (t : Option String) (s : UnitState)
    (hm : s.hasMixer = true) (hg : s.isGrounded = true) :
    (c.jump = true →
      (update 0 c j theta t s).velocity.y = 13.0 ∧
        (update 0 c j theta t s).isGrounded = false)
    ∧ (c.jump = false → (update 0 c j theta t s).velocity.y = 0) := by
  constructor
  · intro hj
    constructor <;> simp [update, hm, hg, hj]
  · intro hj
    simp [update, hm, hg, hj]

/-- Witness for C2: jump from rest at the origin. -/
theorem jump_impulse_witness :
    (c2state.hasMixer = true ∧ c2state.isGrounded = true ∧ cJump.jump = true) ∧
    (update 0 cJump j0 0 none c2state).velocity.y = 13.0 ∧
    (update 0 cJump j0 0 none c2state).isGrounded = false :=
  ⟨⟨rfl, rfl, rfl⟩, (jump_impulse cJump j0 0 none c2state rfl rfl).1 rfl⟩

/-- C8 (amended): after every `Unit.update` call on a loaded unit the capsule
endpoints are recomputed from the updated position, as
`position + (0, radius, 0)` and `position + (0, height - radius, 0)`.  The
collision resolver does not re-derive them, so after a resolve that moves the
unit they reflect the pre-resolve position until the next update. -/
theorem capsule_from_position (delta : ℝ) (c : ControlState) (j : JoystickState)
    (theta : ℝ) (t : Option String) (s : UnitState) (hm : s.hasMixer = true) :
    (update delta c j theta t s).capsuleStart
        = (update delta c j theta t s).position + (⟨0, radius, 0⟩ : Vec3)
    ∧ (update delta c j theta t s).capsuleEnd
        = (update delta c j theta t s).position + (⟨0, height - radius, 0⟩ : Vec3) := by
  constructor <;> simp [update, hm, vadd_comm]

/-- Witness for C8's amended theorem at a concrete loaded state. -/
theorem capsule_from_position_witness :
    c2state.hasMixer = true ∧
    (update 0.1 cIdle j0 0 none c2state).capsuleStart
      = (update 0.1 cIdle j0 0 none c2state).position + (⟨0, radius, 0⟩ : Vec3) :=
  ⟨rfl, (capsule_from_position 0.1 cIdle j0 0 none c2state rfl).1⟩

/-- C8 counterexample: the claim as stated fails after a tick in which the
collision resolver moved the unit.  A falling unit integrated below the
floor is clamped back to `y = 0`, but the capsule keeps the pre-clamp
position, so `capsuleStart ≠ position + (0, radius, 0)` after the tick. -/
theorem c8_counterexample :
    (checkCollisions [] (update 0.1 cIdle j0 0 none c8state)).1.capsuleStart
      ≠ (checkCollisions [] (update 0.1 cIdle j0 0 none c8state)).1.position
          + (⟨0, radius, 0⟩ : Vec3) := by
  intro h
  have hy := congrArg Vec3.y h
  norm_num [checkCollisions, update, c8state, cIdle, j0, moveIntent, inputMagOf,
    lerp, radius, height, Real.sqrt_zero, resolveObstacle] at hy

/-- C4: on a collision-resolve call entered with `position.y ≤ 0` and
`isGrounded = false`, the dust callback fires exactly once, with the clamped
landing position; and any call entered grounded fires it zero times. -/
theorem dust_on_landing (s : UnitState) (obs : List Box3)
    (hy : s.position.y ≤ 0) (hg : s.isGrounded = false) :
    (checkCollisions obs s).2 = [(⟨s.position.x, 0, s.position.z⟩ : Vec3)]
    ∧ (checkCollisions obs s).1.isGrounded = true
    ∧ ∀ (s2 : UnitState) (obs2 : List Box3), s2.isGrounded = true →
        (checkCollisions obs2 s2).2 = [] := by
  refine ⟨?_, ?_, ?_⟩
  · simp [checkCollisions, hy, hg]
  · simp [checkCollisions, hy, foldl_resolve_isGrounded]
  · intro s2 obs2 hg2
    simp [checkCollisions, hg2]

/-- Witness for C4: an airborne unit below the floor lands and spawns dust
once; the call leaves it grounded. -/
theorem dust_on_landing_witness :
    (c4state.position.y ≤ 0 ∧ c4state.isGrounded = false) ∧
    (checkCollisions [] c4state).2 = [(⟨c4state.position.x, 0, c4state.position.z⟩ : Vec3)] ∧
    (checkCollisions [] c4state).1.isGrounded = true :=
  ⟨⟨by norm_num [c4state], rfl⟩,
    (dust_on_landing c4state [] (by norm_num [c4state]) rfl).1,
    (dust_on_landing c4state [] (by norm_num [c4state]) rfl).2.1⟩

/-- C5: the collision resolver is idempotent on position: from a state whose
position is at or above the floor and penetrates no obstacle, a second
`checkCollisions` call right after a first one leaves the position unchanged. -/
theorem collision_resolver_idempotent {s : UnitState} {obs : List Box3}
    (hy : 0 ≤ s.position.y)
    (hfar : ∀ b ∈ obs, ¬ dist3 s.position (clampPoint s.position b) < radius) :
    (checkCollisions obs (checkCollisions obs s).1).1.position
      = (checkCollisions obs s).1.position := by
  have h1 := checkCollisions_keeps_position hy hfar
  exact checkCollisions_keeps_position (by rw [h1]; exact hy)
    (by intro b hb; rw [h1]; exact hfar b hb)

/-! ## Further helper lemmas -/

theorem vec3_zero_def : (0 : Vec3) = ⟨0, 0, 0⟩ := rfl

theorem lengthSq_smul (t : ℝ) (v : Vec3) : lengthSq (t • v) = t ^ 2 * lengthSq v := by
  simp only [lengthSq, smul_x, smul_y, smul_z]
  ring

theorem dot_smul_left (t : ℝ) (a b : Vec3) : dot (t • a) b = t * dot a b := by
  simp only [dot, smul_x, smul_y, smul_z]
  ring

theorem smul_smul_vec (a b : ℝ) (v : Vec3) : a • (b • v) = (a * b) • v := by
  ext <;> simp <;> ring

theorem clampR_eq_self_of {v lo hi : ℝ} (hlh : lo ≤ hi) (h : clampR v lo hi = v) :
    lo ≤ v ∧ v ≤ hi := by
  constructor
  · rw [← h]
    exact le_max_left _ _
  · rw [← h]
    exact max_le hlh (min_le_left _ _)

theorem camOp_preserves (cam : CameraOrbit) (op : CamOp)
    (h1 : -0.2 ≤ cam.phi) (h2 : cam.phi ≤ 1.3)
    (h3 : -0.2 ≤ cam.targetPhi) (h4 : cam.targetPhi ≤ 1.3) :
    -0.2 ≤ (applyCamOp cam op).phi ∧ (applyCamOp cam op).phi ≤ 1.3 ∧
    -0.2 ≤ (applyCamOp cam op).targetPhi ∧ (applyCamOp cam op).targetPhi ≤ 1.3 := by
  cases op with
  | drag dx dy =>
      refine ⟨h1, h2, ?_, ?_⟩
      · exact le_max_left _ _
      · exact max_le (by norm_num) (min_le_left _ _)
  | recenter heading =>
      exact ⟨h1, h2, by norm_num [applyCamOp], by norm_num [applyCamOp]⟩
  | smoothStep =>
      refine ⟨?_, ?_, h3, h4⟩ <;> simp only [applyCamOp, lerp] <;> nlinarith

/-- Witness for C5: a grounded unit one unit away from a box does not move
on repeated resolution. -/
theorem collision_resolver_idempotent_witness :
    (0 ≤ c5state.position.y ∧
      ∀ b ∈ [c5box], ¬ dist3 c5state.position (clampPoint c5state.position b) < radius) ∧
    (checkCollisions [c5box] (checkCollisions [c5box] c5state).1).1.position
      = (checkCollisions [c5box] c5state).1.position := by
  have hy : (0:ℝ) ≤ c5state.position.y := by norm_num [c5state]
  have hfar : ∀ b ∈ [c5box],
      ¬ dist3 c5state.position (clampPoint c5state.position b) < radius := by
    intro b hb
    simp only [List.mem_singleton] at hb
    subst hb
    norm_num [dist3, clampPoint, clampR, c5state, c5box, length, lengthSq,
      radius, min_def, max_def, Real.sqrt_one]
  exact ⟨⟨hy, hfar⟩, collision_resolver_idempotent hy hfar⟩

/-- C6: the camera pitch stays in `[-0.2, 1.3]`: from the initial orbit
(`phi = targetPhi = 0.3`), any sequence of pointer drags, recenter triggers
and per-tick smoothing steps leaves both `phi` and `targetPhi` inside
`[-0.2, 1.3]`. -/
theorem camera_phi_invariant (ops : List CamOp) :
    -0.2 ≤ (runCamera ops).phi ∧ (runCamera ops).phi ≤ 1.3 ∧
    -0.2 ≤ (runCamera ops).targetPhi ∧ (runCamera ops).targetPhi ≤ 1.3 := by
  have main : ∀ (l : List CamOp) (cam : CameraOrbit),
      (-0.2 ≤ cam.phi ∧ cam.phi ≤ 1.3 ∧ -0.2 ≤ cam.targetPhi ∧ cam.targetPhi ≤ 1.3) →
      -0.2 ≤ (l.foldl applyCamOp cam).phi ∧ (l.foldl applyCamOp cam).phi ≤ 1.3 ∧
      -0.2 ≤ (l.foldl applyCamOp cam).targetPhi ∧
        (l.foldl applyCamOp cam).targetPhi ≤ 1.3 := by
    intro l
    induction l with
    | nil => intro cam h; exact h
    | cons op t ih =>
        intro cam h
        rw [List.foldl_cons]
        exact ih _ (camOp_preserves cam op h.1 h.2.1 h.2.2.1 h.2.2.2)
  have h0 : -0.2 ≤ initialCamera.phi ∧ initialCamera.phi ≤ 1.3 ∧
      -0.2 ≤ initialCamera.targetPhi ∧ initialCamera.targetPhi ≤ 1.3 := by
    norm_num [initialCamera]
  simpa [runCamera] using main ops initialCamera h0

/-- C9 (amended): the move-direction normalize receives a nonzero vector
whenever the intent magnitude clears the 0.05 deadzone; the penetration
normal `position - closestPoint` is nonzero whenever the position lies
outside the (well-formed) obstacle box.  When the position is on or inside
the box the argument is the zero vector (see the counterexample), which
three.js `normalize` maps back to the zero vector. -/
theorem normalize_guards :
    (∀ (mx mz theta : ℝ), inputMagOf mx mz > 0.05 → moveVec theta mx mz ≠ 0)
    ∧ (∀ (p : Vec3) (b : Box3), wellFormed b → ¬ insideBox p b →
        p - clampPoint p b ≠ 0) := by
  constructor
  · intro mx mz theta hmag hzero
    have hx := congrArg Vec3.x hzero
    have hz := congrArg Vec3.z hzero
    simp only [moveVec, add_x, add_z, smul_x, smul_z, zero_x, zero_z] at hx hz
    have hs := Real.sin_sq_add_cos_sq theta
    have hmx : mx = 0 := by
      linear_combination Real.cos theta * hx - Real.sin theta * hz - mx * hs
    have hmz : mz = 0 := by
      linear_combination (-Real.sin theta) * hx - Real.cos theta * hz - mz * hs
    rw [hmx, hmz] at hmag
    norm_num [inputMagOf, min_def] at hmag
  · intro p b hwf hin hzero
    apply hin
    have hx := congrArg Vec3.x hzero
    have hy := congrArg Vec3.y hzero
    have hz := congrArg Vec3.z hzero
    simp only [clampPoint, sub_x, sub_y, sub_z, zero_x, zero_y, zero_z] at hx hy hz
    have cx := clampR_eq_self_of hwf.1 (by linarith)
    have cy := clampR_eq_self_of hwf.2.1 (by linarith)
    have cz := clampR_eq_self_of hwf.2.2 (by linarith)
    exact ⟨cx.1, cx.2, cy.1, cy.2, cz.1, cz.2⟩

/-- Witness for C9's amended theorem: a forward intent yields a nonzero
move vector, and a point outside a box yields a nonzero penetration normal. -/
theorem normalize_guards_witness :
    (inputMagOf 0 1 > 0.05 ∧ moveVec 0 0 1 ≠ 0) ∧
    (wellFormed c9box ∧ ¬ insideBox (⟨2, 0.5, 0⟩ : Vec3) c9box ∧
      (⟨2, 0.5, 0⟩ : Vec3) - clampPoint ⟨2, 0.5, 0⟩ c9box ≠ 0) := by
  have hmag : inputMagOf 0 1 > 0.05 := by
    norm_num [inputMagOf, min_def, Real.sqrt_one]
  have hwf : wellFormed c9box := by norm_num [wellFormed, c9box]
  have hin : ¬ insideBox (⟨2, 0.5, 0⟩ : Vec3) c9box := by
    norm_num [insideBox, c9box]
  exact ⟨⟨hmag, normalize_guards.1 0 1 0 hmag⟩,
    ⟨hwf, hin, normalize_guards.2 ⟨2, 0.5, 0⟩ c9box hwf hin⟩⟩

/-- C9 counterexample: for a unit position strictly inside an obstacle box
both collision guards pass (broad-phase sphere test and `distance < radius`),
yet the argument of the penetration-normal normalize is the zero vector; so
the normalize is not guarded against zero-length input in that case. -/
theorem c9_counterexample :
    dist3 (⟨0, 0.5, 0⟩ : Vec3) (clampPoint ⟨0, 0.5, 0⟩ c9box) < radius ∧
    distSq (clampPoint (⟨0, 0.5, 0⟩ : Vec3) c9box) ⟨0, 0.5, 0⟩ ≤ height ^ 2 ∧
    (⟨0, 0.5, 0⟩ : Vec3) - clampPoint ⟨0, 0.5, 0⟩ c9box = 0 := by
  have hcp : clampPoint (⟨0, 0.5, 0⟩ : Vec3) c9box = ⟨0, 0.5, 0⟩ := by
    ext <;> norm_num [clampPoint, clampR, c9box, min_def, max_def]
  rw [hcp]
  refine ⟨?_, ?_, ?_⟩
  · norm_num [dist3, length, lengthSq, radius, Real.sqrt_zero]
  · norm_num [distSq, lengthSq, height]
  · ext <;> norm_num

/-- C3 (amended): the per-tick yaw delta is 15% of the angular difference
wrapped into the closed interval `[-π, π]`, congruent to the raw difference
modulo 2π (a raw difference of exactly `-π` wraps to `-π`, not `π`); and a
target of heading + 3π behaves identically to heading + π. -/
theorem yawDelta_wrap (rot target : ℝ) :
    (∃ k : ℤ, yawDelta rot target = 0.15 * ((target - rot) + 2 * Real.pi * k))
    ∧ -Real.pi ≤ wrapAngle (target - rot) ∧ wrapAngle (target - rot) ≤ Real.pi
    ∧ yawDelta rot (rot + 3 * Real.pi) = yawDelta rot (rot + Real.pi) := by
  refine ⟨?_, wrapAngle_ge _, wrapAngle_le _, ?_⟩
  · obtain ⟨k, hk⟩ := wrapAngle_mod (target - rot)
    exact ⟨k, by rw [yawDelta, hk]⟩
  · have hpi := Real.pi_pos
    rw [yawDelta, yawDelta, show rot + 3 * Real.pi - rot = 3 * Real.pi by ring,
      show rot + Real.pi - rot = Real.pi by ring]
    have hw3 : wrapAngle (3 * Real.pi) = Real.pi := by
      rw [wrapAngle, wrapUp_of_ge (by linarith), wrapDown, if_pos (by linarith),
        show 3 * Real.pi - 2 * Real.pi = Real.pi by ring, wrapDown_of_le le_rfl]
    rw [hw3, wrapAngle_of_mem (by linarith) le_rfl]

/-! ## Claim C1: obstacle penetration resolution -/

theorem length_neg04 : length (⟨-0.4, 0, 0⟩ : Vec3) = 0.4 := by
  rw [length, show lengthSq (⟨-0.4, 0, 0⟩ : Vec3) = 0.4 ^ 2 from by norm_num [lengthSq],
    Real.sqrt_sq (by norm_num : (0:ℝ) ≤ 0.4)]

theorem normalize_neg04 : normalize (⟨-0.4, 0, 0⟩ : Vec3) = ⟨-1, 0, 0⟩ := by
  simp only [normalize, length_neg04]
  rw [if_neg (by norm_num)]
  ext <;> norm_num

/-- With the position at or above the floor, `checkCollisions` reduces to the
obstacle fold over the state with only `isGrounded` replaced. -/
theorem checkCollisions_eq_foldl {s : UnitState} (obs : List Box3)
    (hy : 0 ≤ s.position.y) :
    ∃ g : Bool, (checkCollisions obs s).1
      = obs.foldl resolveObstacle { s with isGrounded := g } := by
  by_cases hle : s.position.y ≤ 0
  · refine ⟨true, ?_⟩
    simp only [checkCollisions, if_pos hle]
    have hy0 : s.position.y = 0 := le_antisymm hle hy
    congr 1
    ext <;> simp [hy0]
  · exact ⟨false, by simp only [checkCollisions, if_neg hle]⟩

/-- Resolution of a single obstacle penetrated with depth exactly 0.1:
the position moves by the overlap along the unit outward normal and the
velocity loses its normal component. -/
theorem resolveObstacle_of_penetrating {s : UnitState} {b : Box3}
    (hd : dist3 s.position (clampPoint s.position b) = radius - 0.1) :
    resolveObstacle s b = { s with
      position := s.position
        + (0.1 : ℝ) • normalize (s.position - clampPoint s.position b),
      velocity := s.velocity
        - dot s.velocity (normalize (s.position - clampPoint s.position b))
            • normalize (s.position - clampPoint s.position b) } := by
  have hlen : length (s.position - clampPoint s.position b) = 0.4 := by
    have h4 : dist3 s.position (clampPoint s.position b) = 0.4 := by
      rw [hd]; norm_num [radius]
    exact h4
  have hlsq : lengthSq (s.position - clampPoint s.position b) = 0.16 := by
    have h := sq_length (s.position - clampPoint s.position b)
    rw [hlen] at h
    rw [← h]
    norm_num
  have hbroad : distSq (clampPoint s.position b) s.position ≤ height ^ 2 := by
    rw [distSq_comm_eq, distSq, hlsq]
    norm_num [height]
  have hnear : dist3 s.position (clampPoint s.position b) < radius := by
    rw [hd]; norm_num [radius]
  have hne : length (s.position - clampPoint s.position b) ≠ 0 := by
    rw [hlen]; norm_num
  have hnormsq : lengthSq (normalize (s.position - clampPoint s.position b)) = 1 := by
    rw [normalize, if_neg hne, hlen, lengthSq_smul, hlsq]
    norm_num
  have hover : radius - dist3 s.position (clampPoint s.position b) = 0.1 := by
    rw [hd]
    norm_num [radius]
  simp only [resolveObstacle]
  rw [if_pos hbroad, if_pos hnear, hover]
  have hproj : projectOnPlane s.velocity
      ((0.1:ℝ) • normalize (s.position - clampPoint s.position b))
      = s.velocity - dot s.velocity (normalize (s.position - clampPoint s.position b))
          • normalize (s.position - clampPoint s.position b) := by
    have hmsq : lengthSq ((0.1:ℝ) • normalize (s.position - clampPoint s.position b))
        = 0.01 := by
      rw [lengthSq_smul, hnormsq]
      norm_num
    rw [projectOnPlane, projectOnVector, if_neg (by rw [hmsq]; norm_num), hmsq,
      dot_smul_left, smul_smul_vec]
    congr 1
    congr 1
    rw [dot_comm]
    ring
  rw [hproj]

/-- C1 (amended): for every unit state at or above the floor penetrating a
single obstacle box with depth exactly 0.1 (distance to the closest point is
`radius - 0.1`), one collision-resolve call moves the position exactly 0.1
along the outward unit normal and removes the velocity component along that
normal, leaving the tangential components unchanged. -/
theorem resolve_penetration {s : UnitState} {b : Box3}
    (hy : 0 ≤ s.position.y)
    (hd : dist3 s.position (clampPoint s.position b) = radius - 0.1) :
    (checkCollisions [b] s).1.position
      = s.position + (0.1 : ℝ) • normalize (s.position - clampPoint s.position b)
    ∧ (checkCollisions [b] s).1.velocity
      = s.velocity - dot s.velocity (normalize (s.position - clampPoint s.position b))
          • normalize (s.position - clampPoint s.position b) := by
  obtain ⟨g, hfold⟩ := checkCollisions_eq_foldl [b] hy
  rw [hfold, List.foldl_cons, List.foldl_nil,
    resolveObstacle_of_penetrating (s := { s with isGrounded := g }) (b := b) hd]
  exact ⟨rfl, rfl⟩

/-- Witness for C1's amended theorem: a unit at `(0.6, 1, 1)` penetrating the
box `[1,2] × [0,2] × [0,2]` by 0.1 is pushed to `(0.5, 1, 1)`. -/
theorem resolve_penetration_witness :
    (0 ≤ c1stateW.position.y ∧
      dist3 c1stateW.position (clampPoint c1stateW.position c1boxW) = radius - 0.1) ∧
    (checkCollisions [c1boxW] c1stateW).1.position
      = c1stateW.position
        + (0.1 : ℝ) • normalize (c1stateW.position - clampPoint c1stateW.position c1boxW) := by
  have hy : (0:ℝ) ≤ c1stateW.position.y := by norm_num [c1stateW]
  have hcp : clampPoint c1stateW.position c1boxW = ⟨1, 1, 1⟩ := by
    ext <;> norm_num [clampPoint, clampR, c1stateW, c1boxW, min_def, max_def]
  have hd : dist3 c1stateW.position (clampPoint c1stateW.position c1boxW) = radius - 0.1 := by
    rw [dist3, hcp,
      show c1stateW.position - (⟨1, 1, 1⟩ : Vec3) = ⟨-0.4, 0, 0⟩ from by
        ext <;> norm_num [c1stateW],
      length_neg04]
    norm_num [radius]
  exact ⟨⟨hy, hd⟩, (resolve_penetration hy hd).1⟩

/-- C1 counterexample: the claim as stated (for every unit state) fails when
the unit is below the floor.  At entry position `(0.6, -1, 1)` the penetration
premise holds (distance `radius - 0.1` to the box), but the floor clamp runs
first, so the resolve call does not move the unit by exactly
`0.1 · normal` from its entry position. -/
theorem c1_counterexample :
    dist3 c1stateX.position (clampPoint c1stateX.position c1boxX) = radius - 0.1 ∧
    (checkCollisions [c1boxX] c1stateX).1.position
      ≠ c1stateX.position
        + (0.1 : ℝ) • normalize (c1stateX.position - clampPoint c1stateX.position c1boxX) := by
  have hcp : clampPoint c1stateX.position c1boxX = ⟨1, -1, 1⟩ := by
    ext <;> norm_num [clampPoint, clampR, c1stateX, c1boxX, min_def, max_def]
  have hsub : c1stateX.position - (⟨1, -1, 1⟩ : Vec3) = ⟨-0.4, 0, 0⟩ := by
    ext <;> norm_num [c1stateX]
  have hd : dist3 c1stateX.position (clampPoint c1stateX.position c1boxX) = radius - 0.1 := by
    rw [dist3, hcp, hsub, length_neg04]
    norm_num [radius]
  refine ⟨hd, ?_⟩
  have hstep : (checkCollisions [c1boxX] c1stateX).1 = resolveObstacle c1stateX2 c1boxX := by
    simp only [checkCollisions, if_pos (show c1stateX.position.y ≤ 0 by norm_num [c1stateX])]
    rw [List.foldl_cons, List.foldl_nil]
    congr 1
  have hcp2 : clampPoint c1stateX2.position c1boxX = ⟨1, 0, 1⟩ := by
    ext <;> norm_num [clampPoint, clampR, c1stateX2, c1boxX, min_def, max_def]
  have hd2 : dist3 c1stateX2.position (clampPoint c1stateX2.position c1boxX)
      = radius - 0.1 := by
    rw [dist3, hcp2,
      show c1stateX2.position - (⟨1, 0, 1⟩ : Vec3) = ⟨-0.4, 0, 0⟩ from by
        ext <;> norm_num [c1stateX2],
      length_neg04]
    norm_num [radius]
  rw [hstep, resolveObstacle_of_penetrating (s := c1stateX2) (b := c1boxX) hd2]
  have hn2 : normalize (c1stateX2.position - clampPoint c1stateX2.position c1boxX)
      = ⟨-1, 0, 0⟩ := by
    rw [hcp2,
      show c1stateX2.position - (⟨1, 0, 1⟩ : Vec3) = ⟨-0.4, 0, 0⟩ from by
        ext <;> norm_num [c1stateX2]]
    exact normalize_neg04
  have hnX : normalize (c1stateX.position - clampPoint c1stateX.position c1boxX)
      = ⟨-1, 0, 0⟩ := by
    rw [hcp, hsub]
    exact normalize_neg04
  intro heq
  have hyc := congrArg Vec3.y heq
  rw [hn2] at hyc
  rw [hnX] at hyc
  norm_num [c1stateX, c1stateX2] at hyc

/-! ## Claim C7: the 60-tick walk scenario -/

@[simp] theorem mk_add_mk (a b c d e f : ℝ) :
    (⟨a, b, c⟩ : Vec3) + ⟨d, e, f⟩ = ⟨a + d, b + e, c + f⟩ := rfl

@[simp] theorem smul_mk (t a b c : ℝ) :
    t • (⟨a, b, c⟩ : Vec3) = ⟨t * a, t * b, t * c⟩ := rfl

@[simp] theorem mk_sub_mk (a b c d e f : ℝ) :
    (⟨a, b, c⟩ : Vec3) - ⟨d, e, f⟩ = ⟨a - d, b - e, c - f⟩ := rfl

theorem normalize_001 : normalize (⟨0, 0, -1⟩ : Vec3) = ⟨0, 0, -1⟩ := by
  have hl : length (⟨0, 0, -1⟩ : Vec3) = 1 := by
    rw [length, show lengthSq (⟨0, 0, -1⟩ : Vec3) = 1 from by norm_num [lengthSq],
      Real.sqrt_one]
  simp only [normalize, hl]
  rw [if_neg one_ne_zero]
  ext <;> norm_num

theorem atan2_zero_neg_one : atan2 0 (-1) = Real.pi := by
  rw [atan2, Complex.arg_eq_pi_iff]
  constructor <;> norm_num

/-- One tick of the C7 walk scenario at a symbolic state of the reachable
family: straight-line walk along `-z`, grounded, turning toward yaw π. -/
theorem tickC7_step (z vz rot q : ℝ) (act : String) (cs ce : Vec3)
    (hv : vz = -6 * (1 - q)) (hr : rot = Real.pi * (1 - q))
    (hq0 : 0 < q) (hq1 : q ≤ 1)
    (hact : act = "Idle" ∨ act = "Walking") :
    tickC7 { position := ⟨0, 0, z⟩, velocity := ⟨0, 0, vz⟩, rotY := rot,
             isGrounded := true, hasMixer := true, currentAction := act,
             actions := ["Idle", "Walking", "Running", "Jump"],
             capsuleStart := cs, capsuleEnd := ce }
      = { position := ⟨0, 0, z + 0.016 * (-6 * (1 - 0.85 * q))⟩,
          velocity := ⟨0, 0, -6 * (1 - 0.85 * q)⟩,
          rotY := Real.pi * (1 - 0.85 * q),
          isGrounded := true, hasMixer := true, currentAction := "Walking",
          actions := ["Idle", "Walking", "Running", "Jump"],
          capsuleStart := ⟨0, radius, z + 0.016 * (-6 * (1 - 0.85 * q))⟩,
          capsuleEnd := ⟨0, height - radius, z + 0.016 * (-6 * (1 - 0.85 * q))⟩ } := by
  have hpi := Real.pi_pos
  have hmI : moveIntent c7controls j0 = (0, 1) := by norm_num [moveIntent, c7controls, j0]
  have hmagv : inputMagOf 0 1 = 1 := by
    rw [inputMagOf]
    norm_num [Real.sqrt_one]
  have hmv : moveVec 0 0 1 = ⟨0, 0, -1⟩ := by ext <;> norm_num [moveVec]
  have hrun : c7controls.run = false := rfl
  have hjmp : c7controls.jump = false := rfl
  have hlx3 : lerp 0 0 ((3:ℝ)/20) = 0 := by rw [lerp]; ring
  have hw3 : lerp vz (-6 : ℝ) ((3:ℝ)/20) = -6 * (1 - 0.85 * q) := by
    rw [hv, lerp]
    ring
  have hsq : Real.sqrt ((6 * (1 - 17/20 * q)) ^ 2) = 6 * (1 - 17/20 * q) :=
    Real.sqrt_sq (by nlinarith)
  have hs7 : ¬ ((7:ℝ) < Real.sqrt ((6 * (1 - 17/20 * q)) ^ 2)) := by
    rw [hsq]
    intro hc
    nlinarith
  have hs05 : (1/2 : ℝ) < Real.sqrt ((6 * (1 - 17/20 * q)) ^ 2) := by
    rw [hsq]
    nlinarith
  have hyawv : yawDelta rot Real.pi = 0.15 * (Real.pi - rot) := by
    have hq : Real.pi - rot = Real.pi * q := by rw [hr]; ring
    have h1 : -Real.pi ≤ Real.pi - rot := by rw [hq]; nlinarith
    have h2 : Real.pi - rot ≤ Real.pi := by rw [hq]; nlinarith
    rw [yawDelta, wrapAngle_of_mem h1 h2]
  rcases hact with h | h <;> subst h <;>
    (norm_num [tickC7, update, checkCollisions, hmI, hmagv, hmv, hrun, hjmp,
      normalize_001, atan2_zero_neg_one, hyawv, hlx3, hw3, hs7, hs05]
     linear_combination (17/20 : ℝ) * hr)

/-- Closed form of the C7 scenario state after `n` ticks. -/
theorem tickC7_iter (n : ℕ) : ∃ z : ℝ,
    tickC7^[n] c7start =
      { position := ⟨0, 0, z⟩,
        velocity := ⟨0, 0, -6 * (1 - 0.85 ^ n)⟩,
        rotY := Real.pi * (1 - 0.85 ^ n), isGrounded := true, hasMixer := true,
        currentAction := if n = 0 then "Idle" else "Walking",
        actions := ["Idle", "Walking", "Running", "Jump"],
        capsuleStart := ⟨0, radius, z⟩, capsuleEnd := ⟨0, height - radius, z⟩ } := by
  induction n with
  | zero =>
      refine ⟨0, ?_⟩
      rw [Function.iterate_zero_apply]
      ext <;> norm_num [c7start]
  | succ n ih =>
      obtain ⟨z, hz⟩ := ih
      have hstep := tickC7_step z (-6 * (1 - 0.85 ^ n)) (Real.pi * (1 - 0.85 ^ n))
        (0.85 ^ n) (if n = 0 then "Idle" else "Walking")
        (⟨0, radius, z⟩ : Vec3) (⟨0, height - radius, z⟩ : Vec3) rfl rfl
        (by positivity) (pow_le_one₀ (by norm_num) (by norm_num))
        (by by_cases h : n = 0 <;> simp [h])
      rw [Function.iterate_succ_apply', hz, hstep]
      refine ⟨z + 0.016 * (-6 * (1 - 0.85 * 0.85 ^ n)), ?_⟩
      ext <;> simp [pow_succ, Nat.succ_ne_zero] <;>
        first
        | ring1
        | exact Or.inl trivial
        | exact Or.inl (by ring1)

/-- Horizontal speed after `n` ticks of the C7 scenario. -/
theorem horizSpeed_tickC7 (n : ℕ) :
    horizSpeed (tickC7^[n] c7start) = 6 * (1 - 0.85 ^ n) := by
  obtain ⟨z, hz⟩ := tickC7_iter n
  have hp1 : (0.85:ℝ) ^ n ≤ 1 := pow_le_one₀ (by norm_num) (by norm_num)
  rw [hz, horizSpeed]
  simp only []
  rw [show ((⟨0, 0, -6 * (1 - 0.85 ^ n)⟩ : Vec3)).x ^ 2
        + ((⟨0, 0, -6 * (1 - 0.85 ^ n)⟩ : Vec3)).z ^ 2
      = (6 * (1 - 0.85 ^ n)) ^ 2 from by ring]
  exact Real.sqrt_sq (by nlinarith)

/-- C7: starting at the origin at rest and grounded with `forward` held, no
boost, inactive joystick, camera theta 0 and `delta = 0.016`, over 60 ticks
the horizontal speed increases strictly monotonically, reaches within 5% of
6.0 by tick 60, always stays below 6.0 (hence below the 7.0 Running
threshold), the animation becomes Walking, and Running is never selected. -/
theorem c7_walk_scenario :
    (∀ n, n < 60 → horizSpeed (tickC7^[n] c7start) < horizSpeed (tickC7^[n + 1] c7start))
    ∧ 0.95 * 6 ≤ horizSpeed (tickC7^[60] c7start)
    ∧ (∀ n, n ≤ 60 → horizSpeed (tickC7^[n] c7start) < 6)
    ∧ (tickC7^[60] c7start).currentAction = "Walking"
    ∧ (∀ n, n ≤ 60 → (tickC7^[n] c7start).currentAction ≠ "Running") := by
  have hpos : ∀ n : ℕ, (0:ℝ) < 0.85 ^ n := fun n => pow_pos (by norm_num) n
  refine ⟨?_, ?_, ?_, ?_, ?_⟩
  · intro n _
    rw [horizSpeed_tickC7, horizSpeed_tickC7, pow_succ]
    have := hpos n
    nlinarith
  · rw [horizSpeed_tickC7]
    have h60 : (0.85:ℝ) ^ 60 ≤ 0.05 := by norm_num
    nlinarith
  · intro n _
    rw [horizSpeed_tickC7]
    have := hpos n
    nlinarith
  · obtain ⟨z, hz⟩ := tickC7_iter 60
    rw [hz]
    norm_num
  · intro n _
    obtain ⟨z, hz⟩ := tickC7_iter n
    rw [hz]
    by_cases h : n = 0 <;> simp [h]

/-- Witness for C7 at concrete ticks: the speed strictly increases on the
first tick, and tick 60 is Walking and below 6. -/
theorem c7_walk_scenario_witness :
    ((0:ℕ) < 60 ∧ horizSpeed (tickC7^[0] c7start) < horizSpeed (tickC7^[0 + 1] c7start)) ∧
    ((60:ℕ) ≤ 60 ∧ horizSpeed (tickC7^[60] c7start) < 6) ∧
    (tickC7^[60] c7start).currentAction = "Walking" ∧
    ((60:ℕ) ≤ 60 ∧ (tickC7^[60] c7start).currentAction ≠ "Running") :=
  ⟨⟨by norm_num, c7_walk_scenario.1 0 (by norm_num)⟩,
   ⟨le_refl 60, c7_walk_scenario.2.2.1 60 (le_refl 60)⟩,
   c7_walk_scenario.2.2.2.1,
   ⟨le_refl 60, c7_walk_scenario.2.2.2.2 60 (le_refl 60)⟩⟩

/-- C3 counterexample: at current heading 0 and target yaw `-π`, the code
applies `0.15 · (-π)` — the wrapped difference is `-π`, which is not in the
claimed interval `(-π, π]`; the `(-π, π]` representative is `π`, which would
give a different delta. -/
theorem c3_counterexample :
    wrapAngle (-Real.pi - 0) = -Real.pi ∧
    specWrapIoc (-Real.pi - 0) = Real.pi ∧
    yawDelta 0 (-Real.pi) ≠ 0.15 * specWrapIoc (-Real.pi - 0) := by
  have hpi := Real.pi_pos
  have hw : wrapAngle (-Real.pi - 0) = -Real.pi := by
    rw [show -Real.pi - 0 = -Real.pi by ring]
    exact wrapAngle_of_mem le_rfl (by linarith)
  have hspec : specWrapIoc (-Real.pi - 0) = Real.pi := by
    rw [specWrapIoc, show -Real.pi - 0 = -Real.pi by ring]
    have harg : (-Real.pi - Real.pi) / (2 * Real.pi) = -1 := by
      rw [div_eq_iff (by positivity)]
      ring
    rw [harg]
    have hceil : ⌈(-1 : ℝ)⌉ = -1 := by
      rw [show (-1 : ℝ) = ((-1 : ℤ) : ℝ) by norm_num]
      exact Int.ceil_intCast _
    rw [hceil]
    push_cast
    ring
  refine ⟨hw, hspec, ?_⟩
  rw [yawDelta, hw, hspec]
  intro h
  nlinarith

end

end TPC
